import Mathlib

/-!
Shallow embedding of the r-python interpreter core
(`src/ir/ast.rs` and `src/interpreter/interpreter.rs`).

Modelling decisions, stated once here:

* Rust `i32` payloads are Lean `Int`s; the saturating/truncating cast
  `as i32` from `f64` is made explicit (`f64AsI32`).
* Rust `f64` is modelled in its exact regime.  Every `f64` the
  interpreter manufactures from `i32`s is an exactly representable
  integer (|v| < 2^31 < 2^53), and IEEE-754 addition, subtraction and
  comparison of such values are exact, so they are modelled by rational
  arithmetic.  Multiplication of two such integers rounds only when the
  product exceeds 2^53 in magnitude, in which case the rounded value
  still exceeds 2^53 and the subsequent `as i32` cast saturates exactly
  as it does on the exact product, so the integer-result path is again
  faithfully the exact product followed by the saturating cast.
  Division is the one operation producing non-integers and infinities;
  it is modelled by `F64` values (finite rational, infinities, NaN).
  For nonzero `i32` operands the IEEE quotient rounds by at most
  2^(e-53) with |b|*2^e <= 2|a| < 2^32, which is smaller than the
  distance 1/|b| > 2^-31 from any non-integer quotient to the nearest
  integer, so truncation of the IEEE quotient equals truncation of the
  rational quotient.
* `CReal` payloads are rationals: the `CReal`-producing paths are
  modelled in the exact (finite, nonzero-divisor) regime only.
* Rust's `HashMap<Name, Expression>` environment is an association
  list with unique keys; `insertEnv` replaces the binding in place or
  appends, `lookup` mirrors `lookup` in the source, message included.
* The Rust `while` loop in `execute` can diverge, so `execute` takes a
  fuel argument counting recursive entries; `none` means fuel ran out
  (the source would still be running), `some r` is the source's result.
-/

namespace RPython

/-- The `i32::MIN` bound. -/
def i32min : Int := -2147483648

/-- The `i32::MAX` bound. -/
def i32max : Int := 2147483647

/-- Clamp an integer into the `i32` range (the saturating part of
Rust's `as i32` cast from `f64`). -/
def clampI32 (n : Int) : Int := max i32min (min i32max n)

/-- Truncation of a rational toward zero (the rounding mode of Rust's
`as i32` cast from `f64`). -/
def ratTrunc (q : ℚ) : Int := q.num.tdiv q.den

/-- The `f64` values this interpreter can produce, in the exact regime:
a finite value is an exactly known rational. -/
inductive F64 where
  | finite (q : ℚ)
  | posInf
  | negInf
  | nan
deriving DecidableEq

/-- Rust's `as i32` cast from `f64`: truncate toward zero, saturate at
the `i32` bounds, `NaN` to `0`. -/
def f64AsI32 : F64 → Int
  | .finite q => clampI32 (ratTrunc q)
  | .posInf => i32max
  | .negInf => i32min
  | .nan => 0

/-- Read a finite `F64` back as the rational stored in a `CReal`.  The
interpreter only feeds finite values to the `CReal`-producing paths in
the regime this model covers; the non-finite fallback is arbitrary. -/
def f64AsReal : F64 → ℚ
  | .finite q => q
  | _ => 0

/-- The closure `|a, b| a + b` passed to `eval_binary_arith_op` by
`add` (exact on the values this interpreter produces). -/
def fadd : F64 → F64 → F64
  | .finite a, .finite b => .finite (a + b)
  | _, _ => .nan

/-- The closure `|a, b| a - b` passed by `sub`. -/
def fsub : F64 → F64 → F64
  | .finite a, .finite b => .finite (a - b)
  | _, _ => .nan

/-- The closure `|a, b| a * b` passed by `mul`. -/
def fmul : F64 → F64 → F64
  | .finite a, .finite b => .finite (a * b)
  | _, _ => .nan

/-- The closure `|a, b| a / b` passed by `div`: IEEE-754 division,
including the zero-divisor behaviour (`x/0 = ±∞` by the sign of `x`,
`0/0 = NaN`). -/
def fdiv : F64 → F64 → F64
  | .finite a, .finite b =>
      if b = 0 then
        if 0 < a then .posInf
        else if a < 0 then .negInf
        else .nan
      else .finite (a / b)
  | _, _ => .nan

/-- `Expression` from `src/ir/ast.rs`: constants, variable references,
arithmetic, boolean and relational nodes. -/
inductive Expression where
  | CTrue
  | CFalse
  | CInt (n : Int)
  | CReal (q : ℚ)
  | CString (s : String)
  | Var (name : String)
  | Add (lhs rhs : Expression)
  | Sub (lhs rhs : Expression)
  | Mul (lhs rhs : Expression)
  | Div (lhs rhs : Expression)
  | And (lhs rhs : Expression)
  | Or (lhs rhs : Expression)
  | Not (lhs : Expression)
  | EQ (lhs rhs : Expression)
  | GT (lhs rhs : Expression)
  | LT (lhs rhs : Expression)
  | GTE (lhs rhs : Expression)
  | LTE (lhs rhs : Expression)
deriving DecidableEq

/-- `Statement` from `src/ir/ast.rs`. -/
inductive Statement where
  | VarDeclaration (name : String)
  | ValDeclaration (name : String)
  | Assignment (name : String) (exp : Expression)
  | IfThenElse (cond : Expression) (stmtThen stmtElse : Statement)
  | While (cond : Expression) (stmt : Statement)
  | Sequence (s1 s2 : Statement)
deriving DecidableEq

/-- `type Environment = HashMap<Name, Expression>`, as an association
list with unique keys (the map is only ever observed through `lookup`
and updated through `insertEnv`, which keep the key set a set). -/
abbrev Env := List (String × Expression)

/-- `is_constant` from the source. -/
def is_constant : Expression → Bool
  | .CTrue => true
  | .CFalse => true
  | .CInt _ => true
  | .CReal _ => true
  | .CString _ => true
  | _ => false

/-- `lookup`: `env.get(&name)`, with the source's error message
`format!("Variable {} not found", name)` on a miss. -/
def lookup (name : String) (env : Env) : Except String Expression :=
  match env with
  | [] => .error ("Variable " ++ name ++ " not found")
  | (k, v) :: rest => if k = name then .ok v else lookup name rest

/-- `HashMap::insert`: replace the binding for `name` if present,
otherwise add one; every other binding is untouched. -/
def insertEnv (name : String) (value : Expression) (env : Env) : Env :=
  match env with
  | [] => [(name, value)]
  | (k, v) :: rest =>
      if k = name then (name, value) :: rest
      else (k, v) :: insertEnv name value rest

/-- The two `eval(..., env)?` calls shared by every binary operator in
the source: the left operand's error wins, then the right's, then the
continuation sees both values. -/
def bind2 (x y : Except String Expression)
    (k : Expression → Expression → Except String Expression) :
    Except String Expression :=
  match x with
  | .error m => .error m
  | .ok v1 =>
      match y with
      | .error m => .error m
      | .ok v2 => k v1 v2

/-- The match of `eval_binary_arith_op` on the two evaluated operands
(the operand evaluation itself is hoisted into `eval` via `bind2` so
that `eval`'s recursion stays structural): int⊕int runs `op` on the
`as f64` images and casts the result `as i32`; any float operand makes
the result a `CReal`; anything non-numeric is the operator's error. -/
def eval_binary_arith_op (v1 v2 : Expression) (op : F64 → F64 → F64)
    (error_msg : String) : Except String Expression :=
  match v1, v2 with
  | .CInt a, .CInt b => .ok (.CInt (f64AsI32 (op (.finite a) (.finite b))))
  | .CInt a, .CReal q => .ok (.CReal (f64AsReal (op (.finite a) (.finite q))))
  | .CReal p, .CInt b => .ok (.CReal (f64AsReal (op (.finite p) (.finite b))))
  | .CReal p, .CReal q => .ok (.CReal (f64AsReal (op (.finite p) (.finite q))))
  | _, _ => .error error_msg

/-- The match of `eval_binary_boolean_op` on the two evaluated
operands: both must be boolean constants, and `op` sees both values
(no short-circuiting). -/
def eval_binary_boolean_op (v1 v2 : Expression) (op : Bool → Bool → Expression)
    (error_msg : String) : Except String Expression :=
  match v1, v2 with
  | .CTrue, .CTrue => .ok (op true true)
  | .CTrue, .CFalse => .ok (op true false)
  | .CFalse, .CTrue => .ok (op false true)
  | .CFalse, .CFalse => .ok (op false false)
  | _, _ => .error error_msg

/-- The match of `eval_binary_rel_op` on the two evaluated operands:
both must be numeric and are compared in the unified `f64` domain
(exact for these values, hence rational comparison). -/
def eval_binary_rel_op (v1 v2 : Expression) (op : ℚ → ℚ → Expression)
    (error_msg : String) : Except String Expression :=
  match v1, v2 with
  | .CInt a, .CInt b => .ok (op a b)
  | .CInt a, .CReal q => .ok (op a q)
  | .CReal p, .CInt b => .ok (op p b)
  | .CReal p, .CReal q => .ok (op p q)
  | _, _ => .error error_msg

/-- The boolean-valued comparison results used by `eq`/`gt`/`lt`/
`gte`/`lte`. -/
def boolExpr (b : Bool) : Expression := if b then .CTrue else .CFalse

/-- `eval` from the source.  Every `Expression` variant is covered by
the operator arms, the `Var` arm or the `is_constant` guard, so the
source's final `Err("Not implemented yet.")` arm is unreachable and has
no image here. -/
def eval : Expression → Env → Except String Expression
  | .Add lhs rhs, env =>
      bind2 (eval lhs env) (eval rhs env) fun v1 v2 =>
        eval_binary_arith_op v1 v2 fadd
          "addition '(+)' is only defined for numbers (integers and real)."
  | .Sub lhs rhs, env =>
      bind2 (eval lhs env) (eval rhs env) fun v1 v2 =>
        eval_binary_arith_op v1 v2 fsub
          "subtraction '(-)' is only defined for numbers (integers and real)."
  | .Mul lhs rhs, env =>
      bind2 (eval lhs env) (eval rhs env) fun v1 v2 =>
        eval_binary_arith_op v1 v2 fmul
          "multiplication '(*)' is only defined for numbers (integers and real)."
  | .Div lhs rhs, env =>
      bind2 (eval lhs env) (eval rhs env) fun v1 v2 =>
        eval_binary_arith_op v1 v2 fdiv
          "division '(/)' is only defined for numbers (integers and real)."
  | .And lhs rhs, env =>
      bind2 (eval lhs env) (eval rhs env) fun v1 v2 =>
        eval_binary_boolean_op v1 v2 (fun a b => boolExpr (a && b))
          "'and' is only defined for booleans."
  | .Or lhs rhs, env =>
      bind2 (eval lhs env) (eval rhs env) fun v1 v2 =>
        eval_binary_boolean_op v1 v2 (fun a b => boolExpr (a || b))
          "'or' is only defined for booleans."
  | .Not lhs, env =>
      match eval lhs env with
      | .error m => .error m
      | .ok .CTrue => .ok .CFalse
      | .ok .CFalse => .ok .CTrue
      | .ok _ => .error "'not' is only defined for booleans."
  | .EQ lhs rhs, env =>
      bind2 (eval lhs env) (eval rhs env) fun v1 v2 =>
        eval_binary_rel_op v1 v2 (fun a b => boolExpr (a = b))
          "(==) is only defined for numbers (integers and real)."
  | .GT lhs rhs, env =>
      bind2 (eval lhs env) (eval rhs env) fun v1 v2 =>
        eval_binary_rel_op v1 v2 (fun a b => boolExpr (b < a))
          "(>) is only defined for numbers (integers and real)."
  | .LT lhs rhs, env =>
      bind2 (eval lhs env) (eval rhs env) fun v1 v2 =>
        eval_binary_rel_op v1 v2 (fun a b => boolExpr (a < b))
          "(<) is only defined for numbers (integers and real)."
  | .GTE lhs rhs, env =>
      bind2 (eval lhs env) (eval rhs env) fun v1 v2 =>
        eval_binary_rel_op v1 v2 (fun a b => boolExpr (b ≤ a))
          "(>=) is only defined for numbers (integers and real)."
  | .LTE lhs rhs, env =>
      bind2 (eval lhs env) (eval rhs env) fun v1 v2 =>
        eval_binary_rel_op v1 v2 (fun a b => boolExpr (a ≤ b))
          "(<=) is only defined for numbers (integers and real)."
  | .Var name, env => lookup name env
  | exp, _ => .ok exp

/-- `execute` from the source, with a fuel argument bounding the number
of recursive entries (the Rust `while` loop is unrolled into a
recursive re-entry of the `While` statement, exactly re-evaluating the
condition against the environment the body produced).  `none` means
the fuel ran out; `some` is the source's `Result`. -/
def execute : Nat → Statement → Env → Option (Except String Env)
  | 0, _, _ => none
  | fuel + 1, stmt, env =>
      match stmt with
      | .Assignment name exp =>
          match eval exp env with
          | .error m => some (.error m)
          | .ok value => some (.ok (insertEnv name value env))
      | .IfThenElse cond stmtThen stmtElse =>
          match eval cond env with
          | .error m => some (.error m)
          | .ok .CTrue => execute fuel stmtThen env
          | .ok .CFalse => execute fuel stmtElse env
          | .ok _ => some (.error "expecting a boolean value.")
      | .While cond stmt =>
          match eval cond env with
          | .error m => some (.error m)
          | .ok value =>
              if value = .CTrue then
                match execute fuel stmt env with
                | none => none
                | some (.error m) => some (.error m)
                | some (.ok newEnv) => execute fuel (.While cond stmt) newEnv
              else some (.ok env)
      | .Sequence s1 s2 =>
          match execute fuel s1 env with
          | none => none
          | some (.error m) => some (.error m)
          | some (.ok newEnv) => execute fuel s2 newEnv
      | _ => some (.error "not implemented yet")

/-- Equality of interpreter results is decidable (the source derives
`PartialEq` and compares results in its tests). -/
instance {e a : Type} [DecidableEq e] [DecidableEq a] : DecidableEq (Except e a) := fun x y =>
  match x, y with
  | .ok u, .ok v => decidable_of_iff (u = v) (by constructor <;> intro h <;> simp_all)
  | .error u, .error v => decidable_of_iff (u = v) (by constructor <;> intro h <;> simp_all)
  | .ok _, .error _ => .isFalse (by simp)
  | .error _, .ok _ => .isFalse (by simp)

/-- Whether a value is a boolean constant (the operand kind
`eval_binary_boolean_op` accepts). -/
def isBoolConst : Expression → Bool
  | .CTrue => true
  | .CFalse => true
  | _ => false

/-- The numeric value of a constant in the unified numeric domain in
which `eval_binary_rel_op` compares, `none` for non-numeric values. -/
def asNum : Expression → Option ℚ
  | .CInt n => some n
  | .CReal q => some q
  | _ => none

/-- Every binding of the environment is a constant (the invariant the
environment keeps in practice, per the data model). -/
def envAllConst (env : Env) : Prop := ∀ p ∈ env, is_constant p.2 = true

instance (env : Env) : Decidable (envAllConst env) :=
  inferInstanceAs (Decidable (∀ p ∈ env, is_constant p.2 = true))

/-- The test program `x = 10; y = 0; while x > 0: { y = y + x; x = x - 1 }`
from the spec and the source's `eval_summation` test. -/
def summationProgram : Statement :=
  .Sequence (.Assignment "x" (.CInt 10))
    (.Sequence (.Assignment "y" (.CInt 0))
      (.While (.GT (.Var "x") (.CInt 0))
        (.Sequence (.Assignment "y" (.Add (.Var "y") (.Var "x")))
          (.Assignment "x" (.Sub (.Var "x") (.CInt 1))))))

/-- Truncating an integer-valued rational returns that integer. -/
theorem ratTrunc_intCast (n : Int) : ratTrunc (n : ℚ) = n := by
  simp [ratTrunc, Rat.num_intCast, Rat.den_intCast, Int.tdiv_one]

/-- The `as i32` cast on an integer-valued `f64` only clamps. -/
theorem f64AsI32_intCast (n : Int) : f64AsI32 (.finite (n : ℚ)) = clampI32 n := by
  simp [f64AsI32, ratTrunc_intCast]

/-- `f64` addition of two `i32` images is the exact integer sum. -/
theorem fadd_intCast (a b : Int) :
    fadd (.finite (a : ℚ)) (.finite (b : ℚ)) = .finite ((a + b : Int) : ℚ) := by
  simp [fadd]

/-- `f64` subtraction of two `i32` images is the exact difference. -/
theorem fsub_intCast (a b : Int) :
    fsub (.finite (a : ℚ)) (.finite (b : ℚ)) = .finite ((a - b : Int) : ℚ) := by
  simp [fsub]

/-- `f64` multiplication of two `i32` images is the exact product (see
the header comment: past 2^53 the rounding is absorbed by the cast). -/
theorem fmul_intCast (a b : Int) :
    fmul (.finite (a : ℚ)) (.finite (b : ℚ)) = .finite ((a * b : Int) : ℚ) := by
  simp [fmul]

/-- Inverting `bind2`: a successful result needs both operands to
succeed. -/
theorem bind2_ok {x y : Except String Expression}
    {k : Expression → Expression → Except String Expression} {v : Expression}
    (h : bind2 x y k = .ok v) :
    ∃ v1 v2, x = .ok v1 ∧ y = .ok v2 ∧ k v1 v2 = .ok v := by
  cases x with
  | error m => simp [bind2] at h
  | ok v1 =>
      cases y with
      | error m => simp [bind2] at h
      | ok v2 => exact ⟨v1, v2, rfl, rfl, h⟩

/-- Whatever `eval_binary_arith_op` returns successfully is a numeric
constant. -/
theorem eval_binary_arith_op_ok_constant {v1 v2 v : Expression}
    {op : F64 → F64 → F64} {msg : String}
    (h : eval_binary_arith_op v1 v2 op msg = .ok v) : is_constant v = true := by
  cases v1 <;> cases v2 <;> simp_all [eval_binary_arith_op] <;> exact h ▸ rfl

/-- Whatever `eval_binary_boolean_op` returns successfully is `op`
applied to two booleans. -/
theorem eval_binary_boolean_op_ok {v1 v2 v : Expression}
    {op : Bool → Bool → Expression} {msg : String}
    (h : eval_binary_boolean_op v1 v2 op msg = .ok v) :
    ∃ b1 b2 : Bool, v = op b1 b2 := by
  cases v1 <;> cases v2 <;> simp_all [eval_binary_boolean_op]

/-- A non-boolean operand makes `eval_binary_boolean_op` fail with the
operator's message. -/
theorem eval_binary_boolean_op_error {v1 v2 : Expression}
    {op : Bool → Bool → Expression} {msg : String}
    (h : isBoolConst v1 = false ∨ isBoolConst v2 = false) :
    eval_binary_boolean_op v1 v2 op msg = .error msg := by
  cases v1 <;> cases v2 <;> simp_all [eval_binary_boolean_op, isBoolConst]

/-- Two numeric operands make `eval_binary_rel_op` succeed with `op` on
their images in the unified numeric domain. -/
theorem eval_binary_rel_op_num {v1 v2 : Expression} {p q : ℚ}
    {op : ℚ → ℚ → Expression} {msg : String}
    (h1 : asNum v1 = some p) (h2 : asNum v2 = some q) :
    eval_binary_rel_op v1 v2 op msg = .ok (op p q) := by
  cases v1 <;> cases v2 <;> simp_all [asNum, eval_binary_rel_op]

/-- A non-numeric operand makes `eval_binary_rel_op` fail with the
operator's message. -/
theorem eval_binary_rel_op_error {v1 v2 : Expression}
    {op : ℚ → ℚ → Expression} {msg : String}
    (h : asNum v1 = none ∨ asNum v2 = none) :
    eval_binary_rel_op v1 v2 op msg = .error msg := by
  cases v1 <;> cases v2 <;> simp_all [asNum, eval_binary_rel_op]

/-- After an insert, looking the inserted name up returns the inserted
value. -/
theorem lookup_insertEnv_self (n : String) (v : Expression) (env : Env) :
    lookup n (insertEnv n v env) = .ok v := by
  induction env with
  | nil => simp [insertEnv, lookup]
  | cons p rest ih =>
      by_cases hk : p.1 = n
      · simp [insertEnv, hk, lookup]
      · simp [insertEnv, hk, lookup, ih]

/-- An insert leaves the binding of every other name unchanged. -/
theorem lookup_insertEnv_ne {m n : String} (hmn : m ≠ n) (v : Expression) (env : Env) :
    lookup m (insertEnv n v env) = lookup m env := by
  have hnm : n ≠ m := Ne.symm hmn
  induction env with
  | nil => simp [insertEnv, lookup, hnm]
  | cons p rest ih =>
      by_cases hk : p.1 = n
      · simp [insertEnv, hk, lookup, hnm]
      · by_cases hm : p.1 = m
        · simp [insertEnv, hk, lookup, hm, hmn, hnm]
        · simp [insertEnv, hk, lookup, hm, ih]

/-- A successful lookup returns a value actually bound in the list. -/
theorem lookup_mem {n : String} {env : Env} {v : Expression}
    (h : lookup n env = .ok v) : (n, v) ∈ env := by
  induction env with
  | nil => simp [lookup] at h
  | cons p rest ih =>
      by_cases hk : p.1 = n
      · simp only [lookup, hk, if_pos] at h
        cases h
        exact List.mem_cons.2 (Or.inl (by rw [← hk]))
      · simp only [lookup, hk, if_neg, not_false_iff] at h
        exact List.mem_cons_of_mem _ (ih h)

/-- `lookup` agrees with `List.lookup` on the association list. -/
theorem lookup_eq_some_iff {n : String} {env : Env} {v : Expression} :
    List.lookup n env = some v ↔ lookup n env = .ok v := by
  induction env with
  | nil => simp [lookup, List.lookup]
  | cons p rest ih =>
      obtain ⟨k, w⟩ := p
      by_cases hk : k = n
      · subst hk
        simp [lookup, List.lookup]
      · have hbeq : (n == k) = false := by
          simp [beq_iff_eq]
          exact fun h => hk h.symm
        simp [lookup, List.lookup, hk, hbeq, ih]

/-- A failing `lookup` corresponds to an absent key. -/
theorem lookup_eq_none_iff {n : String} {env : Env} :
    List.lookup n env = none ↔
      lookup n env = .error ("Variable " ++ n ++ " not found") := by
  induction env with
  | nil => simp [lookup, List.lookup]
  | cons p rest ih =>
      obtain ⟨k, w⟩ := p
      by_cases hk : k = n
      · subst hk
        simp [lookup, List.lookup]
      · have hbeq : (n == k) = false := by
          simp [beq_iff_eq]
          exact fun h => hk h.symm
        simp [lookup, List.lookup, hk, hbeq, ih]

/-- Inserting a constant into an all-constant environment keeps it
all-constant. -/
theorem insertEnv_allConst {env : Env} {n : String} {v : Expression}
    (henv : envAllConst env) (hv : is_constant v = true) :
    envAllConst (insertEnv n v env) := by
  induction env with
  | nil =>
      intro p hp
      simp [insertEnv] at hp
      rw [hp]
      exact hv
  | cons q rest ih =>
      have hq : is_constant q.2 = true := henv q (List.mem_cons_self q rest)
      have hrest : envAllConst rest := fun p hp => henv p (List.mem_cons_of_mem q hp)
      intro p hp
      by_cases hk : q.1 = n
      · simp only [insertEnv, hk, if_pos] at hp
        rcases List.mem_cons.1 hp with h | h
        · rw [h]; exact hv
        · exact hrest p h
      · simp only [insertEnv, hk, if_neg, not_false_iff] at hp
        rcases List.mem_cons.1 hp with h | h
        · rw [h]; exact hq
        · exact ih hrest p h

/-- A comparison result is a boolean constant. -/
theorem is_constant_boolExpr (b : Bool) : is_constant (boolExpr b) = true := by
  cases b <;> rfl

/-- Whatever `eval_binary_rel_op` returns successfully is an `op`
image, hence constant when `op` only builds constants. -/
theorem eval_binary_rel_op_ok_constant {v1 v2 v : Expression}
    {op : ℚ → ℚ → Expression} {msg : String}
    (hop : ∀ p q, is_constant (op p q) = true)
    (h : eval_binary_rel_op v1 v2 op msg = .ok v) : is_constant v = true := by
  cases v1 <;> cases v2 <;> simp_all [eval_binary_rel_op] <;> exact h ▸ hop _ _

/-- Every successful evaluation against an all-constant environment
returns a constant: the operator arms only build numeric or boolean
constants, variables return what the environment holds, and constants
return themselves. -/
theorem eval_ok_constant {env : Env} (henv : envAllConst env) :
    ∀ {e v : Expression}, eval e env = .ok v → is_constant v = true := by
  intro e v h
  cases e with
  | Add lhs rhs =>
      rw [eval] at h
      obtain ⟨v1, v2, _, _, hk⟩ := bind2_ok h
      exact eval_binary_arith_op_ok_constant hk
  | Sub lhs rhs =>
      rw [eval] at h
      obtain ⟨v1, v2, _, _, hk⟩ := bind2_ok h
      exact eval_binary_arith_op_ok_constant hk
  | Mul lhs rhs =>
      rw [eval] at h
      obtain ⟨v1, v2, _, _, hk⟩ := bind2_ok h
      exact eval_binary_arith_op_ok_constant hk
  | Div lhs rhs =>
      rw [eval] at h
      obtain ⟨v1, v2, _, _, hk⟩ := bind2_ok h
      exact eval_binary_arith_op_ok_constant hk
  | And lhs rhs =>
      rw [eval] at h
      obtain ⟨v1, v2, _, _, hk⟩ := bind2_ok h
      obtain ⟨b1, b2, hb⟩ := eval_binary_boolean_op_ok hk
      rw [hb]
      cases b1 <;> cases b2 <;> rfl
  | Or lhs rhs =>
      rw [eval] at h
      obtain ⟨v1, v2, _, _, hk⟩ := bind2_ok h
      obtain ⟨b1, b2, hb⟩ := eval_binary_boolean_op_ok hk
      rw [hb]
      cases b1 <;> cases b2 <;> rfl
  | Not lhs =>
      rw [eval] at h
      rcases hv : eval lhs env with m | w
      · rw [hv] at h; simp at h
      · rw [hv] at h
        cases w <;> simp_all <;> exact h ▸ rfl
  | EQ lhs rhs =>
      rw [eval] at h
      obtain ⟨v1, v2, _, _, hk⟩ := bind2_ok h
      exact eval_binary_rel_op_ok_constant (fun p q => is_constant_boolExpr _) hk
  | GT lhs rhs =>
      rw [eval] at h
      obtain ⟨v1, v2, _, _, hk⟩ := bind2_ok h
      exact eval_binary_rel_op_ok_constant (fun p q => is_constant_boolExpr _) hk
  | LT lhs rhs =>
      rw [eval] at h
      obtain ⟨v1, v2, _, _, hk⟩ := bind2_ok h
      exact eval_binary_rel_op_ok_constant (fun p q => is_constant_boolExpr _) hk
  | GTE lhs rhs =>
      rw [eval] at h
      obtain ⟨v1, v2, _, _, hk⟩ := bind2_ok h
      exact eval_binary_rel_op_ok_constant (fun p q => is_constant_boolExpr _) hk
  | LTE lhs rhs =>
      rw [eval] at h
      obtain ⟨v1, v2, _, _, hk⟩ := bind2_ok h
      exact eval_binary_rel_op_ok_constant (fun p q => is_constant_boolExpr _) hk
  | Var name =>
      rw [eval] at h
      exact henv _ (lookup_mem h)
  | CTrue => cases h; rfl
  | CFalse => cases h; rfl
  | CInt n => cases h; rfl
  | CReal q => cases h; rfl
  | CString s => cases h; rfl

/-- Successful execution preserves the all-constant environment
invariant, whatever the statement and fuel. -/
theorem execute_preserves_allConst :
    ∀ (fuel : Nat) (s : Statement) (env env2 : Env), envAllConst env →
      execute fuel s env = some (.ok env2) → envAllConst env2 := by
  intro fuel
  induction fuel with
  | zero => intro s env env2 _ h; simp [execute] at h
  | succ f ih =>
      intro s env env2 henv h
      cases s with
      | VarDeclaration name => simp [execute] at h
      | ValDeclaration name => simp [execute] at h
      | Assignment name exp =>
          rw [execute] at h
          split at h
          · simp at h
          · rename_i value hv
            simp only [Option.some.injEq, Except.ok.injEq] at h
            subst h
            exact insertEnv_allConst henv (eval_ok_constant henv hv)
      | IfThenElse cond stmtThen stmtElse =>
          rw [execute] at h
          split at h
          · simp at h
          · exact ih _ _ _ henv h
          · exact ih _ _ _ henv h
          · simp at h
      | While cond stmt =>
          rw [execute] at h
          split at h
          · simp at h
          · rename_i value hv
            split at h
            · split at h
              · simp at h
              · simp at h
              · rename_i newEnv hb
                exact ih _ _ _ (ih _ _ _ henv hb) h
            · simp only [Option.some.injEq, Except.ok.injEq] at h
              subst h
              exact henv
      | Sequence s1 s2 =>
          rw [execute] at h
          split at h
          · simp at h
          · simp at h
          · rename_i newEnv hb
            exact ih _ _ _ (ih _ _ _ henv hb) h

/-- C1 counterexample: a `While` whose condition evaluates to the
non-boolean `CInt 5` does not return an error — it returns the
unchanged environment, because the loop exits on any value other than
`CTrue`. -/
theorem while_nonboolean_counterexample :
    execute 1 (.While (.CInt 5) (.Assignment "a" (.CInt 1))) [] = some (.ok []) := by
  decide

/-- C1 (amended): at any iteration of `While(cond, body)` — the loop
re-enters the `While` on the environment the body produced — a `cond`
that evaluates successfully to anything other than `CTrue` (boolean
false or non-boolean alike) stops the loop, and `execute` returns `Ok`
with the current environment rather than an error. -/
theorem while_nontrue_condition_exits (cond : Expression) (body : Statement)
    (env env2 : Env) (fuel : Nat) (v : Expression) :
    (eval cond env = .ok v → v ≠ .CTrue →
      execute (fuel + 1) (.While cond body) env = some (.ok env)) ∧
    (eval cond env = .ok .CTrue → execute fuel body env = some (.ok env2) →
      execute (fuel + 1) (.While cond body) env = execute fuel (.While cond body) env2) := by
  constructor
  · intro h1 h2
    rw [execute]
    simp [h1, h2]
  · intro h1 h2
    rw [execute]
    simp [h1, h2]

/-- C1 witness: the amended statement at concrete inputs — a `CInt 7`
condition exits at once with the environment unchanged, and a `CTrue`
condition re-enters the loop on the body's output environment. -/
theorem while_nontrue_condition_exits_witness :
    execute 4 (.While (.CInt 7) (.Assignment "b" .CTrue)) [("w", .CInt 3)] =
        some (.ok [("w", .CInt 3)]) ∧
      execute 4 (.While .CTrue (.Assignment "b" .CTrue)) [] =
        execute 3 (.While .CTrue (.Assignment "b" .CTrue)) [("b", .CTrue)] :=
  ⟨(while_nontrue_condition_exits (.CInt 7) (.Assignment "b" .CTrue)
      [("w", .CInt 3)] [] 3 (.CInt 7)).1 (by decide) (by decide),
   (while_nontrue_condition_exits .CTrue (.Assignment "b" .CTrue)
      [] [("b", .CTrue)] 3 .CTrue).2 (by decide) (by decide)⟩

/-- C3: the program `x = 10; y = 0; while x > 0: { y = y + x; x = x - 1 }`
runs to completion on the empty environment and its final environment
binds `x` to `CInt 0` and `y` to `CInt 55`. -/
theorem summation_program_result :
    ∃ env2 : Env, execute 16 summationProgram [] = some (.ok env2) ∧
      lookup "x" env2 = .ok (.CInt 0) ∧ lookup "y" env2 = .ok (.CInt 55) := by
  refine ⟨[("x", .CInt 0), ("y", .CInt 55)], ?_, by decide, by decide⟩
  simp only [summationProgram, execute, eval, bind2, eval_binary_arith_op, eval_binary_rel_op,
    lookup, insertEnv, fadd_intCast, fsub_intCast, f64AsI32_intCast, boolExpr]
  decide

/-- C7: a variable reference evaluates to the value bound to its name
when the name is present, and fails with the unbound-variable message
naming the variable when it is absent; in particular `Var "z"` against
the empty environment fails with a message mentioning `z`. -/
theorem var_lookup_spec (n : String) (env : Env) (v : Expression) :
    (List.lookup n env = some v → eval (.Var n) env = .ok v) ∧
    (List.lookup n env = none →
      eval (.Var n) env = .error ("Variable " ++ n ++ " not found")) ∧
    eval (.Var "z") [] = .error "Variable z not found" := by
  refine ⟨?_, ?_, by decide⟩
  · intro h
    rw [eval]
    exact lookup_eq_some_iff.1 h
  · intro h
    rw [eval]
    exact lookup_eq_none_iff.1 h

/-- C7 witness: looking up a bound name returns its value. -/
theorem var_lookup_spec_witness :
    eval (.Var "w") [("w", .CInt 9)] = .ok (.CInt 9) :=
  (var_lookup_spec "w" [("w", .CInt 9)] (.CInt 9)).1 (by decide)

/-- C8: addition of numeric constants is commutative at the observable
result, in the integer, mixed integer/float and float/float cases. -/
theorem add_commutative_numeric (env : Env) :
    (∀ x y : Int,
      eval (.Add (.CInt x) (.CInt y)) env = eval (.Add (.CInt y) (.CInt x)) env) ∧
    (∀ (x : Int) (q : ℚ),
      eval (.Add (.CInt x) (.CReal q)) env = eval (.Add (.CReal q) (.CInt x)) env) ∧
    (∀ p q : ℚ,
      eval (.Add (.CReal p) (.CReal q)) env = eval (.Add (.CReal q) (.CReal p)) env) := by
  refine ⟨fun x y => ?_, fun x q => ?_, fun p q => ?_⟩ <;>
    simp [eval, bind2, eval_binary_arith_op, fadd, f64AsReal, add_comm]

/-- C9: integer division by zero never errors: the IEEE quotient is
`±∞` (or `NaN` for `0/0`) and the saturating cast maps it to
`i32::MAX`, `i32::MIN` or `0` by the sign of the dividend. -/
theorem div_by_zero_saturates (n : Int) (env : Env) :
    eval (.Div (.CInt n) (.CInt 0)) env =
      .ok (.CInt (if 0 < n then 2147483647 else if n < 0 then -2147483648 else 0)) := by
  rcases lt_trichotomy 0 n with hpos | hz | hneg
  · have hq : (0 : ℚ) < (n : ℚ) := by exact_mod_cast hpos
    simp [eval, bind2, eval_binary_arith_op, fdiv, hq, hpos, f64AsI32, i32max]
  · subst hz
    simp [eval, bind2, eval_binary_arith_op, fdiv, f64AsI32]
  · have hq : ((n : ℚ)) < 0 := by exact_mod_cast hneg
    simp [eval, bind2, eval_binary_arith_op, fdiv, hq, not_lt.2 (le_of_lt hq), hneg,
      not_lt.2 (le_of_lt hneg), f64AsI32, i32min]

/-- C2: integer⊕integer arithmetic computes in the (exact) `f64` domain
and truncates back through the saturating `as i32` cast — so division
truncates toward the floating-point quotient, also for negative
operands — while any floating-point operand promotes the result to an
untruncated floating-point constant. -/
theorem arith_numeric_coercion (l r : Expression) (env : Env) (a b : Int) (p q : ℚ) :
    (eval l env = .ok (.CInt a) → eval r env = .ok (.CInt b) →
      eval (.Add l r) env = .ok (.CInt (clampI32 (a + b))) ∧
      eval (.Sub l r) env = .ok (.CInt (clampI32 (a - b))) ∧
      eval (.Mul l r) env = .ok (.CInt (clampI32 (a * b))) ∧
      (b ≠ 0 →
        eval (.Div l r) env = .ok (.CInt (clampI32 (ratTrunc ((a : ℚ) / (b : ℚ))))))) ∧
    (eval l env = .ok (.CInt a) → eval r env = .ok (.CReal q) →
      eval (.Add l r) env = .ok (.CReal ((a : ℚ) + q)) ∧
      eval (.Sub l r) env = .ok (.CReal ((a : ℚ) - q)) ∧
      eval (.Mul l r) env = .ok (.CReal ((a : ℚ) * q)) ∧
      (q ≠ 0 → eval (.Div l r) env = .ok (.CReal ((a : ℚ) / q)))) ∧
    (eval l env = .ok (.CReal p) → eval r env = .ok (.CInt b) →
      eval (.Add l r) env = .ok (.CReal (p + (b : ℚ))) ∧
      eval (.Sub l r) env = .ok (.CReal (p - (b : ℚ))) ∧
      eval (.Mul l r) env = .ok (.CReal (p * (b : ℚ))) ∧
      (b ≠ 0 → eval (.Div l r) env = .ok (.CReal (p / (b : ℚ))))) ∧
    (eval l env = .ok (.CReal p) → eval r env = .ok (.CReal q) →
      eval (.Add l r) env = .ok (.CReal (p + q)) ∧
      eval (.Sub l r) env = .ok (.CReal (p - q)) ∧
      eval (.Mul l r) env = .ok (.CReal (p * q)) ∧
      (q ≠ 0 → eval (.Div l r) env = .ok (.CReal (p / q)))) ∧
    eval (.Div (.CInt 10) (.CInt 3)) env = .ok (.CInt 3) ∧
    eval (.Div (.CInt 21) (.CInt 3)) env = .ok (.CInt 7) ∧
    eval (.Div (.CInt (-10)) (.CInt 3)) env = .ok (.CInt (-3)) ∧
    eval (.Add (.CInt 10) (.CReal (41 / 2))) env = .ok (.CReal (61 / 2)) := by
  refine ⟨?_, ?_, ?_, ?_, ?_, ?_, ?_, ?_⟩
  · intro h1 h2
    refine ⟨?_, ?_, ?_, fun hb => ?_⟩
    · simp only [eval, bind2, h1, h2, eval_binary_arith_op, fadd_intCast, f64AsI32_intCast]
    · simp only [eval, bind2, h1, h2, eval_binary_arith_op, fsub_intCast, f64AsI32_intCast]
    · simp only [eval, bind2, h1, h2, eval_binary_arith_op, fmul_intCast, f64AsI32_intCast]
    · have hbq : ((b : ℚ)) ≠ 0 := Int.cast_ne_zero.2 hb
      simp [eval, bind2, h1, h2, eval_binary_arith_op, fdiv, hbq, f64AsI32]
  · intro h1 h2
    refine ⟨?_, ?_, ?_, fun hq0 => ?_⟩
    · simp [eval, bind2, h1, h2, eval_binary_arith_op, fadd, f64AsReal]
    · simp [eval, bind2, h1, h2, eval_binary_arith_op, fsub, f64AsReal]
    · simp [eval, bind2, h1, h2, eval_binary_arith_op, fmul, f64AsReal]
    · simp [eval, bind2, h1, h2, eval_binary_arith_op, fdiv, hq0, f64AsReal]
  · intro h1 h2
    refine ⟨?_, ?_, ?_, fun hb => ?_⟩
    · simp [eval, bind2, h1, h2, eval_binary_arith_op, fadd, f64AsReal]
    · simp [eval, bind2, h1, h2, eval_binary_arith_op, fsub, f64AsReal]
    · simp [eval, bind2, h1, h2, eval_binary_arith_op, fmul, f64AsReal]
    · have hbq : ((b : ℚ)) ≠ 0 := Int.cast_ne_zero.2 hb
      simp [eval, bind2, h1, h2, eval_binary_arith_op, fdiv, hbq, f64AsReal]
  · intro h1 h2
    refine ⟨?_, ?_, ?_, fun hq0 => ?_⟩
    · simp [eval, bind2, h1, h2, eval_binary_arith_op, fadd, f64AsReal]
    · simp [eval, bind2, h1, h2, eval_binary_arith_op, fsub, f64AsReal]
    · simp [eval, bind2, h1, h2, eval_binary_arith_op, fmul, f64AsReal]
    · simp [eval, bind2, h1, h2, eval_binary_arith_op, fdiv, hq0, f64AsReal]
  · simp only [eval, bind2, eval_binary_arith_op]
    with_unfolding_all decide
  · simp only [eval, bind2, eval_binary_arith_op]
    with_unfolding_all decide
  · simp only [eval, bind2, eval_binary_arith_op]
    with_unfolding_all decide
  · simp only [eval, bind2, eval_binary_arith_op]
    with_unfolding_all decide

/-- C2 witness: the integer path at `2 + 3` (through the theorem). -/
theorem arith_numeric_coercion_witness :
    eval (.Add (.CInt 2) (.CInt 3)) [] = .ok (.CInt (clampI32 (2 + 3))) :=
  ((arith_numeric_coercion (.CInt 2) (.CInt 3) [] 2 3 0 0).1 rfl rfl).1

/-- C4: `and`/`or` evaluate both operands eagerly (no short-circuit), so
an error on the right propagates even when the left alone decides the
result; two boolean operands give the usual boolean result, and any
non-boolean operand is a type error. -/
theorem boolean_ops_eager (l r : Expression) (env : Env) (e : String)
    (v1 v2 : Expression) (b1 b2 : Bool) :
    (eval l env = .ok .CFalse → eval r env = .error e →
      eval (.And l r) env = .error e) ∧
    (eval l env = .ok .CTrue → eval r env = .error e →
      eval (.Or l r) env = .error e) ∧
    (eval l env = .ok (boolExpr b1) → eval r env = .ok (boolExpr b2) →
      eval (.And l r) env = .ok (boolExpr (b1 && b2)) ∧
      eval (.Or l r) env = .ok (boolExpr (b1 || b2))) ∧
    (eval l env = .ok v1 → eval r env = .ok v2 →
      isBoolConst v1 = false ∨ isBoolConst v2 = false →
      eval (.And l r) env = .error "'and' is only defined for booleans." ∧
      eval (.Or l r) env = .error "'or' is only defined for booleans.") ∧
    eval (.And .CTrue .CFalse) env = .ok .CFalse ∧
    eval (.And .CTrue (.CInt 1)) env = .error "'and' is only defined for booleans." := by
  refine ⟨?_, ?_, ?_, ?_, ?_, ?_⟩
  · intro h1 h2
    simp [eval, bind2, h1, h2]
  · intro h1 h2
    simp [eval, bind2, h1, h2]
  · intro h1 h2
    cases b1 <;> cases b2 <;>
      constructor <;> simp_all [eval, bind2, eval_binary_boolean_op, boolExpr]
  · intro h1 h2 hbad
    constructor <;>
      · rw [eval]
        simp only [bind2, h1, h2]
        exact eval_binary_boolean_op_error hbad
  · simp [eval, bind2, eval_binary_boolean_op, boolExpr]
  · simp [eval, bind2, eval_binary_boolean_op]

/-- C4 witness: an error in the right operand of `and` propagates even
though the left operand is already false. -/
theorem boolean_ops_eager_witness :
    eval (.And .CFalse (.Var "q")) [] = .error "Variable q not found" :=
  (boolean_ops_eager .CFalse (.Var "q") [] "Variable q not found"
    .CTrue .CTrue true true).1 (by decide) (by decide)

/-- C5: assignment evaluates the right-hand side and, on success,
returns the environment updated at exactly that name (other bindings
unchanged, previous binding or not); an evaluation error is returned
unchanged.  In particular `x = 42` on the empty environment binds `x`
to `CInt 42`. -/
theorem assignment_updates_env (n m : String) (e : Expression) (env : Env)
    (v : Expression) (msg : String) (fuel : Nat) :
    (eval e env = .ok v →
      execute (fuel + 1) (.Assignment n e) env = some (.ok (insertEnv n v env)) ∧
      lookup n (insertEnv n v env) = .ok v ∧
      (m ≠ n → lookup m (insertEnv n v env) = lookup m env)) ∧
    (eval e env = .error msg →
      execute (fuel + 1) (.Assignment n e) env = some (.error msg)) ∧
    (execute 1 (.Assignment "x" (.CInt 42)) [] = some (.ok [("x", .CInt 42)]) ∧
      lookup "x" [("x", .CInt 42)] = .ok (.CInt 42)) := by
  refine ⟨?_, ?_, by decide, by decide⟩
  · intro h
    refine ⟨?_, lookup_insertEnv_self n v env, fun hmn => lookup_insertEnv_ne hmn v env⟩
    rw [execute]
    simp [h]
  · intro h
    rw [execute]
    simp [h]

/-- C5 witness: assigning to a fresh name keeps the old binding. -/
theorem assignment_updates_env_witness :
    execute 1 (.Assignment "k" (.CInt 5)) [("j", .CTrue)] =
      some (.ok (insertEnv "k" (.CInt 5) [("j", .CTrue)])) :=
  ((assignment_updates_env "k" "j" (.CInt 5) [("j", .CTrue)] (.CInt 5) "" 0).1 rfl).1

/-- C6: the relational operators compare any two numeric operands in
the unified numeric domain — equality is value equality across the
integer/float representations — and fail with the operator's type
error when an operand is non-numeric. -/
theorem rel_ops_unified_numeric (l r : Expression) (env : Env)
    (v1 v2 : Expression) (p q : ℚ) :
    (eval l env = .ok v1 → eval r env = .ok v2 →
      asNum v1 = some p → asNum v2 = some q →
      eval (.EQ l r) env = .ok (boolExpr (p = q)) ∧
      eval (.GT l r) env = .ok (boolExpr (q < p)) ∧
      eval (.LT l r) env = .ok (boolExpr (p < q)) ∧
      eval (.GTE l r) env = .ok (boolExpr (q ≤ p)) ∧
      eval (.LTE l r) env = .ok (boolExpr (p ≤ q))) ∧
    (eval l env = .ok v1 → eval r env = .ok v2 →
      asNum v1 = none ∨ asNum v2 = none →
      eval (.EQ l r) env = .error "(==) is only defined for numbers (integers and real)." ∧
      eval (.GT l r) env = .error "(>) is only defined for numbers (integers and real)." ∧
      eval (.LT l r) env = .error "(<) is only defined for numbers (integers and real)." ∧
      eval (.GTE l r) env = .error "(>=) is only defined for numbers (integers and real)." ∧
      eval (.LTE l r) env = .error "(<=) is only defined for numbers (integers and real).") ∧
    eval (.EQ (.CInt 10) (.CReal 10)) env = .ok .CTrue := by
  refine ⟨?_, ?_, ?_⟩
  · intro h1 h2 hp hq
    refine ⟨?_, ?_, ?_, ?_, ?_⟩ <;>
      · rw [eval]
        simp only [bind2, h1, h2]
        rw [eval_binary_rel_op_num hp hq]
  · intro h1 h2 hbad
    refine ⟨?_, ?_, ?_, ?_, ?_⟩ <;>
      · rw [eval]
        simp only [bind2, h1, h2]
        exact eval_binary_rel_op_error hbad
  · rw [eval]
    simp only [bind2, eval]
    rw [eval_binary_rel_op_num
      (show asNum (Expression.CInt 10) = some ((10 : Int) : ℚ) from rfl)
      (show asNum (Expression.CReal 10) = some ((10 : ℚ)) from rfl)]
    norm_num [boolExpr]

/-- C6 witness: `3` compares equal to `3.0` through the theorem. -/
theorem rel_ops_unified_numeric_witness :
    eval (.EQ (.CInt 3) (.CReal 3)) [] = .ok (boolExpr ((3 : ℚ) = 3)) := by
  have h := ((rel_ops_unified_numeric (.CInt 3) (.CReal 3) [] (.CInt 3) (.CReal 3)
    ((3 : Int) : ℚ) 3).1 rfl rfl rfl rfl).1
  rw [h]
  norm_num

/-- C10: evaluation and execution are closed over constants — against
an all-constant environment every successful evaluation returns a
constant and every successful execution returns an all-constant
environment — while a variable reference returns whatever expression
the environment holds, unevaluated. -/
theorem constant_closure (env env2 : Env) (e v : Expression) (s : Statement)
    (fuel : Nat) (n : String) :
    (envAllConst env → eval e env = .ok v → is_constant v = true) ∧
    (envAllConst env → execute fuel s env = some (.ok env2) → envAllConst env2) ∧
    (lookup n env = .ok v → eval (.Var n) env = .ok v) := by
  refine ⟨fun henv h => eval_ok_constant henv h,
    fun henv h => execute_preserves_allConst fuel s env env2 henv h,
    fun h => ?_⟩
  rw [eval]
  exact h

/-- C10 witness: the three conjuncts at concrete inputs. -/
theorem constant_closure_witness :
    is_constant (.CInt 3) = true ∧
    envAllConst [("x", .CInt 42)] ∧
    eval (.Var "a") [("a", .CInt 1)] = .ok (.CInt 1) :=
  ⟨(constant_closure [("a", .CInt 1)] [] (.Add (.Var "a") (.CInt 2)) (.CInt 3)
      (.Assignment "x" (.CInt 42)) 1 "a").1 (by decide) (by with_unfolding_all decide),
   (constant_closure [] [("x", .CInt 42)] .CTrue .CTrue
      (.Assignment "x" (.CInt 42)) 1 "x").2.1 (by decide) (by decide),
   (constant_closure [("a", .CInt 1)] [] .CTrue (.CInt 1)
      (.Assignment "x" (.CInt 42)) 1 "a").2.2 (by decide)⟩

end RPython
